import Mathlib

/-!
Shallow embedding of `src/repo2txt/repo2txt.py` (repository documentation
generator).  Paths are modelled as absolute POSIX path strings (components
joined by "/"); the filesystem walked by the program is modelled by the
inductive type `FS` below.  Python's `os.path.isfile` / `os.path.isdir`
oracles become explicit Boolean arguments supplied by the walk, which knows
the kind of every node it visits.

The repository ships no `config.json`, so `load_config` always falls back to
the default dictionary written in the source (lines 55-65); those defaults
are therefore authoritative for the constant extension lists below.
-/

namespace Repo2Txt

/-- Model of Python `str.startswith`: the pattern's characters are a prefix
of the string's characters. -/
def pyStartsWith (s pat : String) : Bool :=
  pat.data.isPrefixOf s.data

/-- Model of Python `str.lower` (character-wise lower-casing; the names this
program compares are ASCII). -/
def pyToLower (s : String) : String :=
  ⟨s.data.map Char.toLower⟩

/-- Model of `os.path.basename` for absolute POSIX paths: the part after the
last "/". -/
def basename (p : String) : String :=
  ⟨(p.data.reverse.takeWhile (fun c => c != '/')).reverse⟩

/-- Index of the last '.' in a character list, if any. -/
def lastDotIdx (cs : List Char) : Option Nat :=
  match cs.reverse.findIdx? (· == '.') with
  | none => none
  | some j => some (cs.length - 1 - j)

/-- Model of `os.path.splitext(name)[1]` for a bare file name (no "/"):
the suffix starting at the last '.', except that a name whose characters
before that dot are all dots (e.g. ".env", "..env") has no extension. -/
def splitextExt (name : String) : String :=
  let cs := name.data
  match lastDotIdx cs with
  | none => ""
  | some i => if (cs.take i).all (fun c => c == '.') then "" else ⟨cs.drop i⟩

/-- Two strings that agree after lower-casing ("equal up to case"). -/
def upToCase (a b : String) : Bool :=
  pyToLower a == pyToLower b

/-- Model of Python string repetition `s * n`. -/
def pyRepeat (s : String) (n : Nat) : String :=
  String.join (List.replicate n s)

/-- Model of `os.path.relpath p start` for the only case the renderers
reach: `p` lies strictly below `start` (every visited item path is
`start ++ "/" ++ ...` because the walk begins at `start`). -/
def relpath (p start : String) : String :=
  if p == start then "."
  else if pyStartsWith p (start ++ "/") then p.drop (start.length + 1)
  else p

/-- Model of Python `fnmatch.fnmatch` for the pattern forms this program
uses: literal characters, `*` (any sequence) and `?` (any one character).
Bracket character classes are not modelled (no caller of this repository
uses them). -/
def fnmatchChars : List Char → List Char → Bool
  | cs, [] => cs.isEmpty
  | cs, '*' :: ps => cs.tails.any fun t => fnmatchChars t ps
  | [], _ :: _ => false
  | c :: cs, p :: ps => (p == '?' || c == p) && fnmatchChars cs ps

/-- Model of `fnmatch.fnmatch name pat`. -/
def fnmatch (name pat : String) : Bool :=
  fnmatchChars name.data pat.data

/-- `DEFAULT_IGNORE_DIRS` (source line 38); a Python set, modelled as a list
whose membership is what matters. -/
def DEFAULT_IGNORE_DIRS : List String :=
  [".git", ".vscode", ".idea", "__pycache__", "node_modules",
   ".pytest_cache", ".mypy_cache", ".tox", "venv", ".venv"]

/-- `SETTINGS_EXTENSIONS` (default config, source line 62). -/
def SETTINGS_EXTENSIONS : List String :=
  [".ini", ".cfg", ".conf", ".json", ".yaml", ".yml"]

/-- Default extension blacklist `DEFAULT_IGNORE_TYPES_LIST` (source lines
56-63 and 92-95); built with a Python `set`, so only membership is
meaningful. -/
def DEFAULT_IGNORE_TYPES_LIST : List String :=
  [".png", ".jpg", ".jpeg", ".gif", ".bmp", ".tiff", ".svg",
   ".mp4", ".avi", ".mov", ".mkv", ".flv", ".wmv",
   ".mp3", ".wav", ".aac", ".flac", ".ogg",
   ".pdf", ".doc", ".docx", ".ppt", ".pptx", ".xls", ".xlsx",
   ".jar", ".zip", ".tar", ".gzip",
   ".exe", ".dll", ".bin", ".sh", ".bat",
   ".lock", ".pyc", ".pyo", ".so", ".dylib"]

/-- The parsed command-line arguments consumed by the core (`parse_args`,
source lines 98-185).  Path-valued fields hold the absolute paths the code
obtains via `os.path.abspath`. -/
structure Args where
  repo_path : String
  output_file : String
  ignore_files : List String
  ignore_types : List String
  exclude_dir : List String
  ignore_settings : Bool
  include_dir : Option String
  include_files : Option (List String)
  no_content : Bool
  dry_run : Bool
  verbose : Bool
deriving Repr, DecidableEq

/-- The sentinel normalisation performed by `validate_arguments` (source
lines 462-468): a filter list that is exactly `["none"]` becomes the empty
list.  The remaining checks of `validate_arguments` (root-path validity,
output-directory existence, DOCX availability) are filesystem/runtime
probes outside this pure model. -/
def validate_arguments (args : Args) : Args :=
  let a1 := if args.ignore_files == ["none"] then { args with ignore_files := [] } else args
  let a2 := if a1.ignore_types == ["none"] then { a1 with ignore_types := [] } else a1
  if a2.exclude_dir == ["none"] then { a2 with exclude_dir := [] } else a2

/-- Rule 1 (source line 215): never include the output file itself. -/
def rule_output (args : Args) (itemPath : String) : Bool :=
  itemPath == args.output_file

/-- The environment-file name test of rule 2 (source lines 220-222):
lower-cased name starts with ".env" or is one of the three literals. -/
def envNameHit (name : String) : Bool :=
  pyStartsWith (pyToLower name) ".env" ||
    [".env", ".environment", "environment"].contains (pyToLower name)

/-- Rule 2 (source lines 219-223): files that look like environment/secrets
files are always excluded. -/
def rule_env (isFile : Bool) (name : String) : Bool :=
  isFile && envNameHit name

/-- Rule 3 (source line 226): common development-artifact directories. -/
def rule_devdirs (name : String) (isDir : Bool) : Bool :=
  DEFAULT_IGNORE_DIRS.contains name && isDir

/-- Rule 4 (source line 230): hidden entries, except the processing root. -/
def rule_hidden (name itemPath rootPath : String) : Bool :=
  pyStartsWith name "." && itemPath != rootPath

/-- Rule 5 (source line 234): user-specified directory exclusions.  Python's
truthiness test `args.exclude_dir and ...` is the non-emptiness check. -/
def rule_excl_dir (isDir : Bool) (args : Args) (name : String) : Bool :=
  isDir && (!args.exclude_dir.isEmpty && args.exclude_dir.contains name)

/-- Rule 6 (source lines 238-241): with an include directory configured, an
entry survives only when one absolute path string starts with the other
(Python `str.startswith` on the raw path strings). -/
def includeDirRejects (args : Args) (itemPath : String) : Bool :=
  match args.include_dir with
  | none => false
  | some d => !(pyStartsWith itemPath d || pyStartsWith d itemPath)

/-- Rule 7a (source lines 246-248): whitelist of file-name glob patterns;
when configured, a file matching none of the patterns is excluded. -/
def rule_whitelist (args : Args) (name : String) : Bool :=
  match args.include_files with
  | none => false
  | some pats => !(pats.any (fun pat => fnmatch name pat))

/-- Rule 7b (source line 251): literal file-name blacklist and extension
blacklist.  `ext` is the already lower-cased extension (source line 212). -/
def rule_blacklist (args : Args) (name ext : String) : Bool :=
  args.ignore_files.contains name || args.ignore_types.contains ext

/-- Rule 7c (source line 255): settings-file filtering. -/
def rule_settings (args : Args) (ext : String) : Bool :=
  args.ignore_settings && SETTINGS_EXTENSIONS.contains ext

/-- The filter `should_ignore(item_path, args, repo_root_path)` (source
lines 188-258).  `isFile` / `isDir` stand for `os.path.isfile` /
`os.path.isdir` on `itemPath`, supplied by the walk.  The sequential
early-return chain of the source becomes a Boolean disjunction in source
order. -/
def should_ignore (itemPath : String) (isFile isDir : Bool) (args : Args)
    (repoRootPath : String) : Bool :=
  let item_name := basename itemPath
  let file_ext := pyToLower (splitextExt item_name)
  rule_output args itemPath ||
  rule_env isFile item_name ||
  rule_devdirs item_name isDir ||
  rule_hidden item_name itemPath repoRootPath ||
  rule_excl_dir isDir args item_name ||
  includeDirRejects args itemPath ||
  (isFile &&
    (rule_whitelist args item_name ||
     rule_blacklist args item_name file_ext ||
     rule_settings args file_ext))

/-- A benign baseline configuration used by concrete witnesses. -/
def cfgBase : Args :=
  { repo_path := "/r"
    output_file := "/out.txt"
    ignore_files := []
    ignore_types := []
    exclude_dir := []
    ignore_settings := false
    include_dir := none
    include_files := none
    no_content := false
    dry_run := false
    verbose := false }

/-- The filesystem subtree the program walks.  A file carries the outcome of
reading its body in text mode: `.ok lines` is the sequence of lines Python's
file iteration yields (each keeping its newline), `.error e` models any
exception raised while opening/reading (source line 354). -/
inductive FS where
  | file (name : String) (body : Except String (List String))
  | dir (name : String) (children : List FS)
deriving Repr

/-- Display name of a node (what `os.listdir` returns for it). -/
def FS.name : FS → String
  | .file n _ => n
  | .dir n _ => n

/-- Model of `os.path.isfile` at a visited node. -/
def FS.isFile : FS → Bool
  | .file _ _ => true
  | .dir _ _ => false

/-- Model of `os.path.isdir` at a visited node. -/
def FS.isDir : FS → Bool
  | .file _ _ => false
  | .dir _ _ => true

/-- Insert into a name-sorted list (ascending, stable). -/
def insertByName (t : FS) : List FS → List FS
  | [] => [t]
  | u :: us => if u.name < t.name then u :: insertByName t us else t :: u :: us

/-- Model of Python `sorted(os.listdir(dir_path))` (source lines 290, 382):
the children in ascending lexicographic order of display name. -/
def sortByName : List FS → List FS
  | [] => []
  | t :: ts => insertByName t (sortByName ts)

theorem sizeOf_insertByName (t : FS) (l : List FS) :
    sizeOf (insertByName t l) = 1 + sizeOf t + sizeOf l := by
  induction l with
  | nil => simp [insertByName]
  | cons u us ih =>
      simp only [insertByName]
      split
      · simp [ih]; omega
      · simp

theorem sizeOf_sortByName (l : List FS) : sizeOf (sortByName l) = sizeOf l := by
  induction l with
  | nil => simp [sortByName]
  | cons t ts ih => simp [sortByName, sizeOf_insertByName, ih]

theorem sizeOf_filter_le (p : FS → Bool) (l : List FS) :
    sizeOf (l.filter p) ≤ sizeOf l := by
  induction l with
  | nil => simp
  | cons a as ih =>
      simp only [List.filter_cons]
      split <;> simp <;> omega

/-- The per-child survival test both renderers apply (source lines 300,
390): the child at `dirPath ++ "/" ++ name` is kept when `should_ignore`
rejects it. -/
def keepEntry (args : Args) (repoRoot dirPath : String) (c : FS) : Bool :=
  !(should_ignore (dirPath ++ "/" ++ c.name) c.isFile c.isDir args repoRoot)

/-- `sorted(os.listdir(...))` followed by the filter loop of `write_tree`
(source lines 290, 297-301). -/
def prepKids (args : Args) (repoRoot dirPath : String) (cs : List FS) : List FS :=
  (sortByName cs).filter (keepEntry args repoRoot dirPath)

theorem sizeOf_prepKids_le (args : Args) (r d : String) (cs : List FS) :
    sizeOf (prepKids args r d cs) ≤ sizeOf cs := by
  calc sizeOf (prepKids args r d cs) ≤ sizeOf (sortByName cs) :=
        sizeOf_filter_le _ _
    _ = sizeOf cs := sizeOf_sortByName cs

/-- Result of the tree renderer.  `lines` and `count` mirror the text-sink
writes and the returned `items_processed` of `write_tree`; `entryPaths`
(absolute path of every rendered child entry, pre-order) and `filePaths`
(absolute paths of the rendered file entries, pre-order) are instrumentation
used to state the ordering/exclusion properties. -/
structure TreeOut where
  lines : List String
  count : Nat
  entryPaths : List String
  filePaths : List String
deriving Repr, DecidableEq

/-- The child loop of `write_tree` (source lines 303-325) on an
already-sorted-and-filtered sibling list: one line per child with the
branch glyph chosen by last-sibling position, recursing into directory
children on their sorted/filtered children (the recursive `write_tree`
call, source line 324, whose own listing+filtering is `prepKids`). -/
def treeGo (args : Args) (repoRoot : String) : List FS → String → String → TreeOut
  | [], _, _ => ⟨[], 0, [], []⟩
  | .file n _ :: ts, dirPath, pref =>
      let line := pref ++ (if ts.isEmpty then "└── " else "├── ") ++ n ++ "\n"
      let rest := treeGo args repoRoot ts dirPath pref
      ⟨line :: rest.lines, 1 + rest.count,
       (dirPath ++ "/" ++ n) :: rest.entryPaths,
       (dirPath ++ "/" ++ n) :: rest.filePaths⟩
  | .dir n cs :: ts, dirPath, pref =>
      let line := pref ++ (if ts.isEmpty then "└── " else "├── ") ++ n ++ "\n"
      let sub := treeGo args repoRoot (prepKids args repoRoot (dirPath ++ "/" ++ n) cs)
                   (dirPath ++ "/" ++ n)
                   (pref ++ (if ts.isEmpty then "    " else "│   "))
      let rest := treeGo args repoRoot ts dirPath pref
      ⟨line :: (sub.lines ++ rest.lines), 1 + (sub.count + rest.count),
       (dirPath ++ "/" ++ n) :: (sub.entryPaths ++ rest.entryPaths),
       sub.filePaths ++ rest.filePaths⟩
termination_by l _ _ => sizeOf l
decreasing_by
  all_goals simp
  all_goals (have h := sizeOf_prepKids_le args repoRoot (dirPath ++ "/" ++ n) cs; omega)

/-- `write_tree(dir_path, …, is_root=True)` (source lines 261-327) for the
text sink: the root's display-name line (written unconditionally, before any
filtering, source lines 280-287), then the rendered children.  A file root
is unreachable (`validate_arguments` requires the processing root to be a
directory) and contributes nothing. -/
def write_tree (fs : FS) (dirPath : String) (args : Args)
    (repoRootPath : String) : TreeOut :=
  match fs with
  | .file _ _ => ⟨[], 0, [], []⟩
  | .dir _ cs =>
      let rest := treeGo args repoRootPath (prepKids args repoRootPath dirPath cs)
                    dirPath ""
      ⟨(basename dirPath ++ "/\n") :: rest.lines, 1 + rest.count,
       rest.entryPaths, rest.filePaths⟩

/-- `write_file_content(file_path, output_file, depth)` (source lines
330-361) for the text sink, taking the read outcome of the file at
`file_path` directly: on success each line is written indented; on any
read error the error message is written in place of the body and `False`
is returned. -/
def write_file_content (body : Except String (List String)) (depth : Nat) :
    List String × Bool :=
  let indentation := pyRepeat "  " depth
  match body with
  | .ok ls => (ls.map (fun line => indentation ++ line), true)
  | .error e => ([indentation ++ "Error reading file: " ++ e ++ "\n"], false)

/-- Result of the content renderer.  `chunks` is the sequence of text-sink
writes, `count` the returned `files_processed`; `files` records, per
rendered file in order, its absolute path, the relative path on its
begin/end markers, and whether its body was read successfully. -/
structure ContentOut where
  chunks : List String
  count : Nat
  files : List (String × String × Bool)
deriving Repr, DecidableEq

/-- The item loop of `write_file_contents_in_order` (source lines 388-417)
over an already-sorted sibling list: ignored items are skipped, directory
items recurse on their sorted children at depth+1 (the recursive call,
source line 397), file items emit the begin marker, the body (or inline
error), and the end marker, counting only successful reads. -/
def contentGo (args : Args) (repoRoot : String) : List FS → String → Nat → ContentOut
  | [], _, _ => ⟨[], 0, []⟩
  | .file n body :: ts, dirPath, depth =>
      if should_ignore (dirPath ++ "/" ++ n) true false args repoRoot then
        contentGo args repoRoot ts dirPath depth
      else
        let rel := relpath (dirPath ++ "/" ++ n) (args.include_dir.getD args.repo_path)
        let seg := write_file_content body depth
        let rest := contentGo args repoRoot ts dirPath depth
        ⟨(pyRepeat "  " depth ++ "[File Begins] " ++ rel ++ "\n") ::
           (seg.1 ++ (pyRepeat "  " depth ++ "[File Ends] " ++ rel ++ "\n\n")
              :: rest.chunks),
         (if seg.2 then 1 else 0) + rest.count,
         (dirPath ++ "/" ++ n, rel, seg.2) :: rest.files⟩
  | .dir n cs :: ts, dirPath, depth =>
      if should_ignore (dirPath ++ "/" ++ n) false true args repoRoot then
        contentGo args repoRoot ts dirPath depth
      else
        let sub := contentGo args repoRoot (sortByName cs) (dirPath ++ "/" ++ n) (depth + 1)
        let rest := contentGo args repoRoot ts dirPath depth
        ⟨sub.chunks ++ rest.chunks, sub.count + rest.count,
         sub.files ++ rest.files⟩
termination_by l _ _ => sizeOf l
decreasing_by
  all_goals simp
  all_goals (have h := sizeOf_sortByName cs; omega)

/-- `write_file_contents_in_order(dir_path, …, depth=0)` (source lines
364-419) for the text sink.  A file root is unreachable (the processing
root is a validated directory). -/
def write_file_contents_in_order (fs : FS) (dirPath : String) (args : Args)
    (repoRootPath : String) : ContentOut :=
  match fs with
  | .file _ _ => ⟨[], 0, []⟩
  | .dir _ cs => contentGo args repoRootPath (sortByName cs) dirPath 0

/-- The sequence of writes `main` issues to the text output file (source
lines 536-551): header, tree section, and — unless `--no-content` — the
content section. -/
def mainTextChunks (fs : FS) (args : Args) : List String :=
  let root := args.include_dir.getD args.repo_path
  ["Repository Documentation\n", pyRepeat "=" 50 ++ "\n\n",
   "Directory/File Tree -->\n\n"]
  ++ (write_tree fs root args root).lines
  ++ ["\n<-- Directory/File Tree\n\n"]
  ++ (if args.no_content then []
      else ["File Contents -->\n\n"]
        ++ (write_file_contents_in_order fs root args root).chunks
        ++ ["\n<-- File Contents\n\n"])

/-- The text branch of `main` (source lines 535-559): the writes that go
into the output file, and the final diagnostic line printed afterwards
(source lines 556-559). -/
def mainText (fs : FS) (args : Args) : List String × String :=
  (mainTextChunks fs args,
   if args.dry_run then "Dry run completed - no output file generated"
   else "Documentation successfully generated: " ++ args.output_file)

/-- Definition following the SPEC's words (rule 6 of the evaluator): the
entry's path is an ancestor of, equal to, or a descendant of the subtree
path, as slash-separated paths.  Declared for comparison with the code's
raw string-prefix test `includeDirRejects`; it is not part of the program
model. -/
def ancestorEqOrDescendant (p d : String) : Bool :=
  p == d || pyStartsWith d (p ++ "/") || pyStartsWith p (d ++ "/")

/-- Substring test (structural, used only to state properties about emitted
text): some tail of `s` starts with `sub`. -/
def containsSub (s sub : String) : Bool :=
  s.data.tails.any (fun t => sub.data.isPrefixOf t)

theorem pyStartsWith_iff (s t : String) : pyStartsWith s t = true ↔ t.data <+: s.data := by
  simp [pyStartsWith, List.isPrefixOf_iff_prefix]

theorem pyStartsWith_self (s : String) : pyStartsWith s s = true := by
  simp [pyStartsWith_iff]

theorem pyStartsWith_of_append (s p q : String)
    (h : pyStartsWith s (p ++ q) = true) : pyStartsWith s p = true := by
  rw [pyStartsWith_iff] at h ⊢
  have hp : p.data <+: (p ++ q).data := by
    rw [show (p ++ q).data = p.data ++ q.data from rfl]
    exact List.prefix_append _ _
  exact hp.trans h

theorem should_ignore_output (args : Args) (p : String) (f d : Bool) (root : String)
    (h : p = args.output_file) : should_ignore p f d args root = true := by
  simp [should_ignore, rule_output, h]

theorem treeGo_no_output (args : Args) (root : String) :
    ∀ l dirPath pref, (∀ c ∈ l, keepEntry args root dirPath c = true) →
      args.output_file ∉ (treeGo args root l dirPath pref).entryPaths := by
  intro l dirPath pref
  induction l, dirPath, pref using treeGo.induct args root with
  | case1 => simp [treeGo]
  | case2 n b ts dirPath pref ih =>
      intro hall
      have hhead := hall (FS.file n b) (by simp)
      simp only [keepEntry, FS.name, FS.isFile, FS.isDir, Bool.not_eq_true'] at hhead
      have htail : ∀ c ∈ ts, keepEntry args root dirPath c = true :=
        fun c hc => hall c (by simp [hc])
      simp only [treeGo, List.mem_cons]
      push_neg
      refine ⟨?_, ih htail⟩
      intro heq
      rw [should_ignore_output args _ true false root heq.symm] at hhead
      exact Bool.true_eq_false.mp hhead
  | case3 n cs ts dirPath pref ihsub ihrest =>
      intro hall
      have hhead := hall (FS.dir n cs) (by simp)
      simp only [keepEntry, FS.name, FS.isFile, FS.isDir, Bool.not_eq_true'] at hhead
      have htail : ∀ c ∈ ts, keepEntry args root dirPath c = true :=
        fun c hc => hall c (by simp [hc])
      have hsub : ∀ c ∈ prepKids args root (dirPath ++ "/" ++ n) cs,
          keepEntry args root (dirPath ++ "/" ++ n) c = true :=
        fun c hc => (List.mem_filter.mp hc).2
      simp only [treeGo, List.mem_cons, List.mem_append]
      push_neg
      refine ⟨?_, ihsub hsub, ihrest htail⟩
      intro heq
      rw [should_ignore_output args _ false true root heq.symm] at hhead
      exact Bool.true_eq_false.mp hhead

theorem contentGo_no_output (args : Args) (root : String) :
    ∀ l dirPath depth,
      args.output_file ∉ ((contentGo args root l dirPath depth).files.map (fun x => x.1)) := by
  intro l dirPath depth
  induction l, dirPath, depth using contentGo.induct args root with
  | case1 => simp [contentGo]
  | case2 n body ts dirPath depth h ih =>
      simp only [contentGo, if_pos h]
      exact ih
  | case3 n body ts dirPath depth h ih =>
      simp only [contentGo, if_neg h, List.map_cons, List.mem_cons]
      push_neg
      refine ⟨?_, ih⟩
      intro heq
      exact h (should_ignore_output args _ true false root heq.symm)
  | case4 n cs ts dirPath depth h ih =>
      simp only [contentGo, if_pos h]
      exact ih
  | case5 n cs ts dirPath depth h ihsub ihrest =>
      simp only [contentGo, if_neg h, List.map_append, List.mem_append]
      push_neg
      exact ⟨ihsub, ihrest⟩

theorem contentGo_files_eq_treeGo (args : Args) (root : String) :
    ∀ l dirPath depth pref,
      ((contentGo args root l dirPath depth).files.map (fun x => x.1)) =
        (treeGo args root (l.filter (keepEntry args root dirPath)) dirPath pref).filePaths := by
  intro l dirPath depth
  induction l, dirPath, depth using contentGo.induct args root with
  | case1 => intro pref; simp [contentGo, treeGo]
  | case2 n body ts dirPath depth h ih =>
      intro pref
      have hk : keepEntry args root dirPath (FS.file n body) = false := by
        simp [keepEntry, FS.name, FS.isFile, FS.isDir, h]
      simp only [contentGo, if_pos h, List.filter_cons, hk]
      exact ih pref
  | case3 n body ts dirPath depth h ih =>
      intro pref
      have hk : keepEntry args root dirPath (FS.file n body) = true := by
        simp [keepEntry, FS.name, FS.isFile, FS.isDir]
        exact Bool.not_eq_true _ ▸ (Bool.of_not_eq_true h)
      simp only [contentGo, if_neg h, List.filter_cons, hk, if_pos, List.map_cons, treeGo]
      simp only [List.cons.injEq, true_and]
      exact ih pref
  | case4 n cs ts dirPath depth h ih =>
      intro pref
      have hk : keepEntry args root dirPath (FS.dir n cs) = false := by
        simp [keepEntry, FS.name, FS.isFile, FS.isDir, h]
      simp only [contentGo, if_pos h, List.filter_cons, hk]
      exact ih pref
  | case5 n cs ts dirPath depth h ihsub ihrest =>
      intro pref
      have hk : keepEntry args root dirPath (FS.dir n cs) = true := by
        simp [keepEntry, FS.name, FS.isFile, FS.isDir]
        exact Bool.not_eq_true _ ▸ (Bool.of_not_eq_true h)
      simp only [contentGo, if_neg h, List.filter_cons, hk, if_pos, List.map_append, treeGo]
      rw [prepKids, ihsub, ihrest]

theorem contentGo_count_files (args : Args) (root : String) :
    ∀ l dirPath depth,
      (contentGo args root l dirPath depth).count =
        ((contentGo args root l dirPath depth).files.filter (fun x => x.2.2)).length := by
  intro l dirPath depth
  induction l, dirPath, depth using contentGo.induct args root with
  | case1 => simp [contentGo]
  | case2 n body ts dirPath depth h ih =>
      simp only [contentGo, if_pos h]; exact ih
  | case3 n body ts dirPath depth h ih =>
      simp only [contentGo, if_neg h, List.filter_cons]
      cases hb : (write_file_content body depth).2 <;> simp [hb, ih] <;> omega
  | case4 n cs ts dirPath depth h ih =>
      simp only [contentGo, if_pos h]; exact ih
  | case5 n cs ts dirPath depth h ihsub ihrest =>
      simp only [contentGo, if_neg h, List.filter_append, List.length_append]
      omega

theorem contentGo_files_rel (args : Args) (root : String) :
    ∀ l dirPath depth,
      ∀ x ∈ (contentGo args root l dirPath depth).files,
        x.2.1 = relpath x.1 (args.include_dir.getD args.repo_path) := by
  intro l dirPath depth
  induction l, dirPath, depth using contentGo.induct args root with
  | case1 => simp [contentGo]
  | case2 n body ts dirPath depth h ih =>
      simp only [contentGo, if_pos h]; exact ih
  | case3 n body ts dirPath depth h ih =>
      simp only [contentGo, if_neg h, List.mem_cons]
      rintro x (rfl | hx)
      · rfl
      · exact ih x hx
  | case4 n cs ts dirPath depth h ih =>
      simp only [contentGo, if_pos h]; exact ih
  | case5 n cs ts dirPath depth h ihsub ihrest =>
      simp only [contentGo, if_neg h, List.mem_append]
      rintro x (hx | hx)
      · exact ihsub x hx
      · exact ihrest x hx

theorem treeGo_dry (args : Args) (b : Bool) (root : String) :
    ∀ l dirPath pref,
      treeGo { args with dry_run := b } root l dirPath pref =
        treeGo args root l dirPath pref := by
  intro l dirPath pref
  induction l, dirPath, pref using treeGo.induct args root with
  | case1 => simp [treeGo]
  | case2 n bdy ts dirPath pref ih =>
      simp only [treeGo, ih]
  | case3 n cs ts dirPath pref ihsub ihrest =>
      have hp : prepKids { args with dry_run := b } root (dirPath ++ "/" ++ n) cs =
          prepKids args root (dirPath ++ "/" ++ n) cs := rfl
      cases hts : ts.isEmpty
      · simp [hts] at ihsub
        simp [treeGo, hp, hts, ihsub, ihrest]
      · simp [hts] at ihsub
        simp [treeGo, hp, hts, ihsub, ihrest]

theorem contentGo_dry (args : Args) (b : Bool) (root : String) :
    ∀ l dirPath depth,
      contentGo { args with dry_run := b } root l dirPath depth =
        contentGo args root l dirPath depth := by
  intro l dirPath depth
  have hsi : ∀ p f d r, should_ignore p f d { args with dry_run := b } r =
      should_ignore p f d args r := fun _ _ _ _ => rfl
  induction l, dirPath, depth using contentGo.induct args root with
  | case1 => simp [contentGo]
  | case2 n body ts dirPath depth h ih =>
      simp only [contentGo, hsi, if_pos h, ih]
  | case3 n body ts dirPath depth h ih =>
      simp only [contentGo, hsi, if_neg h, ih]
  | case4 n cs ts dirPath depth h ih =>
      simp only [contentGo, hsi, if_pos h, ih]
  | case5 n cs ts dirPath depth h ihsub ihrest =>
      simp only [contentGo, hsi, if_neg h, ihsub, ihrest]

theorem mainTextChunks_dry (fs : FS) (args : Args) (b : Bool) :
    mainTextChunks fs { args with dry_run := b } = mainTextChunks fs args := by
  cases fs with
  | file n body => simp [mainTextChunks, write_tree, write_file_contents_in_order]
  | dir n cs =>
      simp only [mainTextChunks, write_tree, write_file_contents_in_order,
        treeGo_dry, contentGo_dry]
      rfl

-- Concrete sanity checks of the embedding on small inputs.
example : basename "/r/a.py" = "a.py" := by decide
example : splitextExt "a.py" = ".py" := by decide
example : splitextExt ".env" = "" := by decide
example : splitextExt "..env" = "" := by decide
example : splitextExt "archive.tar.gz" = ".gz" := by decide
example : splitextExt "archive." = "." := by decide
example : fnmatch "utils.py" "*.py" = true := by decide
example : fnmatch "utils.pyc" "*.py" = false := by decide
example : fnmatch "a" "?" = true := by decide
example : should_ignore "/r/a.py" true false cfgBase "/r" = false := by decide
example : should_ignore "/out.txt" true false cfgBase "/r" = true := by decide
example : should_ignore "/r/.ENVIRONMENT" true false cfgBase "/r" = true := by decide
example : should_ignore "/r/.git" false true cfgBase "/r" = true := by decide
example : should_ignore "/r/foobar.txt" true false
    { cfgBase with include_dir := some "/r/foo" } "/r/foo" = false := by decide
example : relpath "/r/sub/a.py" "/r" = "sub/a.py" := by decide

end Repo2Txt

namespace Repo2Txt

def cfgC1 : Args := { cfgBase with include_dir := some "/r/foo" }

/-- C1 counterexample: with include-subtree `/r/foo`, the file
`/r/foobar.txt` is strictly outside the ancestor/descendant relationship,
yet the evaluator does not exclude it (the code compares raw path strings
with `str.startswith`, and "/r/foobar.txt" starts with "/r/foo"). -/
theorem c1_counterexample :
    cfgC1.include_dir = some "/r/foo" ∧
    ancestorEqOrDescendant "/r/foobar.txt" "/r/foo" = false ∧
    should_ignore "/r/foobar.txt" true false cfgC1 "/r/foo" = false :=
  ⟨rfl, by decide, by decide⟩

/-- C1 (amended): the include-subtree rule excludes exactly the entries
whose absolute path string neither starts with the subtree path string nor
is a string prefix of it; whenever it rejects, the evaluator excludes; and
every entry that is a path-wise ancestor of, equal to, or a descendant of
the subtree path passes the rule. -/
theorem c1_include_dir_string_prefix (args : Args) (d : String)
    (h : args.include_dir = some d) (p : String) (f dd : Bool) (root : String) :
    (includeDirRejects args p = true ↔
      (pyStartsWith p d = false ∧ pyStartsWith d p = false)) ∧
    (includeDirRejects args p = true → should_ignore p f dd args root = true) ∧
    (ancestorEqOrDescendant p d = true → includeDirRejects args p = false) := by
  refine ⟨by simp [includeDirRejects, h], ?_, ?_⟩
  · intro hr
    simp [should_ignore, hr]
  · intro ha
    simp only [ancestorEqOrDescendant, Bool.or_eq_true, beq_iff_eq] at ha
    have hor : pyStartsWith p d = true ∨ pyStartsWith d p = true := by
      rcases ha with (rfl | hanc) | hdesc
      · exact Or.inl (pyStartsWith_self p)
      · exact Or.inr (pyStartsWith_of_append d p "/" hanc)
      · exact Or.inl (pyStartsWith_of_append p d "/" hdesc)
    rcases hor with h1 | h1 <;> simp [includeDirRejects, h, h1]

/-- C1 amended-theorem witness at concrete inputs. -/
theorem c1_include_dir_string_prefix_witness :
    (includeDirRejects cfgC1 "/x/elsewhere.txt" = true ↔
      (pyStartsWith "/x/elsewhere.txt" "/r/foo" = false ∧
       pyStartsWith "/r/foo" "/x/elsewhere.txt" = false)) ∧
    (includeDirRejects cfgC1 "/x/elsewhere.txt" = true →
      should_ignore "/x/elsewhere.txt" true false cfgC1 "/r/foo" = true) ∧
    (ancestorEqOrDescendant "/x/elsewhere.txt" "/r/foo" = true →
      includeDirRejects cfgC1 "/x/elsewhere.txt" = false) :=
  c1_include_dir_string_prefix cfgC1 "/r/foo" rfl "/x/elsewhere.txt" true false "/r/foo"

/-- C2: over every tree and configuration, the absolute paths of the files
the tree renderer renders (in depth-first order) coincide with the absolute
paths of the files the content renderer emits markers for, and the marker
(relative) paths are exactly their `relpath` images — tree order and content
order agree index-for-index. -/
theorem c2_tree_content_order (fs : FS) (args : Args) (dirPath root : String) :
    ((write_file_contents_in_order fs dirPath args root).files.map (fun x => x.1)) =
      (write_tree fs dirPath args root).filePaths ∧
    ((write_file_contents_in_order fs dirPath args root).files.map (fun x => x.2.1)) =
      ((write_tree fs dirPath args root).filePaths.map
        (fun q => relpath q (args.include_dir.getD args.repo_path))) := by
  cases fs with
  | file n b => simp [write_tree, write_file_contents_in_order]
  | dir n cs =>
      have h1 : ((write_file_contents_in_order (FS.dir n cs) dirPath args root).files.map
            (fun x => x.1)) =
          (write_tree (FS.dir n cs) dirPath args root).filePaths := by
        have hmain := contentGo_files_eq_treeGo args root (sortByName cs) dirPath 0 ""
        simpa [write_tree, write_file_contents_in_order, prepKids] using hmain
      refine ⟨h1, ?_⟩
      have h2 : ∀ x ∈ (write_file_contents_in_order (FS.dir n cs) dirPath args root).files,
          x.2.1 = relpath x.1 (args.include_dir.getD args.repo_path) :=
        fun x hx => contentGo_files_rel args root (sortByName cs) dirPath 0 x hx
      calc ((write_file_contents_in_order (FS.dir n cs) dirPath args root).files.map
              (fun x => x.2.1))
          = ((write_file_contents_in_order (FS.dir n cs) dirPath args root).files.map
              (fun x => relpath x.1 (args.include_dir.getD args.repo_path))) :=
            List.map_congr_left h2
        _ = (((write_file_contents_in_order (FS.dir n cs) dirPath args root).files.map
              (fun x => x.1)).map
                (fun q => relpath q (args.include_dir.getD args.repo_path))) := by
            simp [List.map_map, Function.comp]
        _ = _ := by rw [h1]

/-- C3: an entry whose absolute path equals the output artifact's path is
excluded by the evaluator under every configuration (first rule of the
chain), and consequently the output path never occurs among the tree
renderer's rendered entries nor among the content renderer's dumped files. -/
theorem c3_output_file_excluded (args : Args) (p : String) (f d : Bool)
    (root : String) (h : p = args.output_file) (fs : FS) (dirPath rootPath : String) :
    should_ignore p f d args root = true ∧
    args.output_file ∉ (write_tree fs dirPath args rootPath).entryPaths ∧
    args.output_file ∉
      ((write_file_contents_in_order fs dirPath args rootPath).files.map (fun x => x.1)) := by
  refine ⟨should_ignore_output args p f d root h, ?_, ?_⟩
  · cases fs with
    | file nn bb => simp [write_tree]
    | dir nn cc =>
        have hall : ∀ c ∈ prepKids args rootPath dirPath cc,
            keepEntry args rootPath dirPath c = true :=
          fun c hc => (List.mem_filter.mp hc).2
        simpa [write_tree] using
          treeGo_no_output args rootPath (prepKids args rootPath dirPath cc) dirPath "" hall
  · cases fs with
    | file nn bb => simp [write_file_contents_in_order]
    | dir nn cc => exact contentGo_no_output args rootPath (sortByName cc) dirPath 0

/-- C3 witness at concrete inputs. -/
theorem c3_output_file_excluded_witness :
    should_ignore "/out.txt" true false cfgBase "/r" = true ∧
    cfgBase.output_file ∉
      (write_tree (FS.dir "r" [FS.file "out.txt" (Except.ok [])]) "/r" cfgBase "/r").entryPaths ∧
    cfgBase.output_file ∉
      ((write_file_contents_in_order (FS.dir "r" [FS.file "out.txt" (Except.ok [])])
          "/r" cfgBase "/r").files.map (fun x => x.1)) :=
  c3_output_file_excluded cfgBase "/out.txt" true false "/r" rfl
    (FS.dir "r" [FS.file "out.txt" (Except.ok [])]) "/r" "/r"

/-- C4: a file whose name looks like an environment/secrets file
(case-insensitively starts with ".env" or equals ".env", ".environment" or
"environment") is excluded by the evaluator under every configuration —
in particular no include-filename whitelist can override the rule. -/
theorem c4_env_file_always_excluded (p : String) (args : Args) (root : String)
    (h : envNameHit (basename p) = true) :
    should_ignore p true false args root = true := by
  simp [should_ignore, rule_env, h]

def cfgC4 : Args := { cfgBase with include_files := some ["*"] }

/-- C4 witness: ".ENV" matches the whitelist pattern "*" and is excluded
anyway. -/
theorem c4_env_file_always_excluded_witness :
    fnmatch (basename "/r/.ENV") "*" = true ∧
    should_ignore "/r/.ENV" true false cfgC4 "/r" = true :=
  ⟨by decide, c4_env_file_always_excluded "/r/.ENV" cfgC4 "/r" (by decide)⟩

end Repo2Txt

namespace Repo2Txt

def cfgC5 : Args := { cfgBase with ignore_types := ["none", ".py"] }

/-- C5 counterexample: an excluded-extension list that merely contains the
sentinel "none" (here, alongside ".py") is not treated as empty —
`validate_arguments` leaves it unchanged, and a ".py" file is still
excluded on that dimension. -/
theorem c5_counterexample :
    cfgC5.ignore_types.contains "none" = true ∧
    (validate_arguments cfgC5).ignore_types = ["none", ".py"] ∧
    should_ignore "/r/a.py" true false (validate_arguments cfgC5) "/r" = true :=
  ⟨by decide, by decide, by decide⟩

/-- C5 (amended): only a filter list that is exactly the one-element list
["none"] is treated as the empty set by `validate_arguments`; when each of
the three lists is exactly ["none"], nothing is filtered on the
corresponding dimension. -/
theorem c5_none_sentinel_exact (args : Args)
    (hf : args.ignore_files = ["none"]) (ht : args.ignore_types = ["none"])
    (hd : args.exclude_dir = ["none"]) :
    (validate_arguments args).ignore_files = [] ∧
    (validate_arguments args).ignore_types = [] ∧
    (validate_arguments args).exclude_dir = [] ∧
    (∀ name ext, rule_blacklist (validate_arguments args) name ext = false) ∧
    (∀ isDir name, rule_excl_dir isDir (validate_arguments args) name = false) := by
  have hv : validate_arguments args =
      { args with ignore_files := [], ignore_types := [], exclude_dir := [] } := by
    simp [validate_arguments, hf, ht, hd]
  rw [hv]
  refine ⟨rfl, rfl, rfl, ?_, ?_⟩
  · intro name ext; simp [rule_blacklist]
  · intro isDir name; simp [rule_excl_dir]

def cfgC5w : Args :=
  { cfgBase with
      ignore_files := ["none"]
      ignore_types := ["none"]
      exclude_dir := ["none"] }

/-- C5 amended-theorem witness at concrete inputs. -/
theorem c5_none_sentinel_exact_witness :
    (validate_arguments cfgC5w).ignore_types = [] ∧
    rule_blacklist (validate_arguments cfgC5w) "a.py" ".py" = false ∧
    rule_excl_dir true (validate_arguments cfgC5w) "ios" = false :=
  ⟨(c5_none_sentinel_exact cfgC5w rfl rfl rfl).2.1,
   (c5_none_sentinel_exact cfgC5w rfl rfl rfl).2.2.2.1 "a.py" ".py",
   (c5_none_sentinel_exact cfgC5w rfl rfl rfl).2.2.2.2 true "ios"⟩

def cfgC6 : Args := { cfgBase with ignore_types := [".PY"] }

/-- C6 counterexample: with excluded-extension set [".PY"], the file
"a.py" has an extension equal to ".PY" up to case, yet the evaluator does
not exclude it — only the file's extension is lower-cased before an exact
comparison, so an upper-case configured entry never matches. -/
theorem c6_counterexample :
    cfgC6.ignore_types = [".PY"] ∧
    upToCase (splitextExt (basename "/r/a.py")) ".PY" = true ∧
    should_ignore "/r/a.py" true false cfgC6 "/r" = false :=
  ⟨rfl, by decide, by decide⟩

/-- C6 (amended): the file's extension is lower-cased and compared by exact
string equality, so extension matching is case-insensitive in the file's
extension exactly when the configured entries are lower-case (the settings
set, being lower-case constants, always matches case-insensitively), while
literal file-name matching stays exact. -/
theorem c6_extension_case_matching (args : Args)
    (h : ∀ e ∈ args.ignore_types, pyToLower e = e) (name : String) :
    (rule_blacklist args name (pyToLower (splitextExt name)) = true ↔
      (args.ignore_files.contains name = true ∨
        ∃ e ∈ args.ignore_types, upToCase (splitextExt name) e = true)) ∧
    (rule_settings args (pyToLower (splitextExt name)) = true ↔
      (args.ignore_settings = true ∧
        ∃ e ∈ SETTINGS_EXTENSIONS, upToCase (splitextExt name) e = true)) := by
  have key : ∀ (L : List String), (∀ e ∈ L, pyToLower e = e) →
      (L.contains (pyToLower (splitextExt name)) = true ↔
        ∃ e ∈ L, upToCase (splitextExt name) e = true) := by
    intro L hL
    rw [List.elem_iff]
    constructor
    · intro hm
      exact ⟨_, hm, by simp [upToCase, hL _ hm]⟩
    · rintro ⟨e, he, hu⟩
      have heq : pyToLower (splitextExt name) = e := by
        have hle := hL e he
        simp only [upToCase, beq_iff_eq, hle] at hu
        exact hu
      exact heq ▸ he
  constructor
  · simp only [rule_blacklist, Bool.or_eq_true]
    exact or_congr Iff.rfl (key args.ignore_types h)
  · simp only [rule_settings, Bool.and_eq_true]
    exact and_congr Iff.rfl (key SETTINGS_EXTENSIONS (by decide))

def cfgC6w : Args :=
  { cfgBase with
      ignore_types := [".py"]
      ignore_settings := true }

/-- C6 amended-theorem witness: with lower-case configured entries, the
upper-case-named files "A.PY" and "config.JSON" are matched on the
extension and settings dimensions. -/
theorem c6_extension_case_matching_witness :
    rule_blacklist cfgC6w "A.PY" (pyToLower (splitextExt "A.PY")) = true ∧
    rule_settings cfgC6w (pyToLower (splitextExt "config.JSON")) = true :=
  ⟨((c6_extension_case_matching cfgC6w (by decide) "A.PY").1).mpr
      (Or.inr ⟨".py", by decide, by decide⟩),
   ((c6_extension_case_matching cfgC6w (by decide) "config.JSON").2).mpr
      ⟨rfl, ⟨".json", by decide, by decide⟩⟩⟩

end Repo2Txt

namespace Repo2Txt

/-- C7: a surviving file whose body cannot be read still gets its begin
marker, an inline error message in place of the body, and its end marker,
while contributing nothing to the count; in general the count returned by
the content renderer equals the number of dumped files whose body was read
successfully. -/
theorem c7_unreadable_file_markers_and_count (args : Args) (root : String)
    (n e : String) (ts : List FS) (dirPath : String) (depth : Nat)
    (h : should_ignore (dirPath ++ "/" ++ n) true false args root = false) :
    (contentGo args root (FS.file n (Except.error e) :: ts) dirPath depth).chunks =
      (pyRepeat "  " depth ++ "[File Begins] " ++
          relpath (dirPath ++ "/" ++ n) (args.include_dir.getD args.repo_path) ++ "\n") ::
        (pyRepeat "  " depth ++ "Error reading file: " ++ e ++ "\n") ::
        (pyRepeat "  " depth ++ "[File Ends] " ++
          relpath (dirPath ++ "/" ++ n) (args.include_dir.getD args.repo_path) ++ "\n\n") ::
        (contentGo args root ts dirPath depth).chunks ∧
    (contentGo args root (FS.file n (Except.error e) :: ts) dirPath depth).count =
      (contentGo args root ts dirPath depth).count ∧
    (∀ fs dp, (write_file_contents_in_order fs dp args root).count =
      ((write_file_contents_in_order fs dp args root).files.filter
        (fun x => x.2.2)).length) := by
  refine ⟨?_, ?_, ?_⟩
  · simp [contentGo, h, write_file_content]
  · simp [contentGo, h, write_file_content]
  · intro fs dp
    cases fs with
    | file nn bb => simp [write_file_contents_in_order]
    | dir nn cc => exact contentGo_count_files args root (sortByName cc) dp 0

/-- C7 witness at concrete inputs. -/
theorem c7_unreadable_file_markers_and_count_witness :
    (contentGo cfgBase "/r" [FS.file "bad.txt" (Except.error "boom")] "/r" 0).chunks =
      ("[File Begins] " ++ relpath "/r/bad.txt" "/r" ++ "\n") ::
        ("Error reading file: boom\n") ::
        ("[File Ends] " ++ relpath "/r/bad.txt" "/r" ++ "\n\n") ::
        (contentGo cfgBase "/r" [] "/r" 0).chunks ∧
    (contentGo cfgBase "/r" [FS.file "bad.txt" (Except.error "boom")] "/r" 0).count =
      (contentGo cfgBase "/r" [] "/r" 0).count ∧
    (write_file_contents_in_order (FS.dir "r" []) "/r" cfgBase "/r").count =
      ((write_file_contents_in_order (FS.dir "r" []) "/r" cfgBase "/r").files.filter
        (fun x => x.2.2)).length := by
  have hmain := c7_unreadable_file_markers_and_count cfgBase "/r" "bad.txt" "boom"
    [] "/r" 0 (by decide)
  exact ⟨by simpa [pyRepeat, cfgBase] using hmain.1, hmain.2.1,
    hmain.2.2 (FS.dir "r" []) "/r"⟩

def demoFS : FS := FS.dir "r" []

/-- C8 counterexample: in a concrete run the document's delimiter text is
"Directory/File Tree -->", "<-- Directory/File Tree", "File Contents -->"
and "<-- File Contents"; the spec's claimed lines "Directory/File Tree
Begins -->", "<-- Directory/File Tree Ends" and "File Content Begins -->"
occur nowhere in the output, not even as substrings. -/
theorem c8_counterexample :
    ((mainTextChunks demoFS cfgBase).all
      (fun c => !(containsSub c "Directory/File Tree Begins" ||
                  containsSub c "Directory/File Tree Ends" ||
                  containsSub c "File Content Begins"))) = true ∧
    "Directory/File Tree -->\n\n" ∈ mainTextChunks demoFS cfgBase ∧
    "\n<-- Directory/File Tree\n\n" ∈ mainTextChunks demoFS cfgBase ∧
    "File Contents -->\n\n" ∈ mainTextChunks demoFS cfgBase := by
  have heval : mainTextChunks demoFS cfgBase =
      ["Repository Documentation\n", pyRepeat "=" 50 ++ "\n\n",
       "Directory/File Tree -->\n\n", basename "/r" ++ "/\n",
       "\n<-- Directory/File Tree\n\n",
       "File Contents -->\n\n", "\n<-- File Contents\n\n"] := by
    simp [demoFS, mainTextChunks, write_tree, write_file_contents_in_order,
      treeGo, contentGo, prepKids, sortByName, cfgBase]
  rw [heval]
  exact ⟨by decide, by decide, by decide, by decide⟩

/-- C8 (amended): in the text format, the tree section is bracketed by the
writes "Directory/File Tree -->" and "<-- Directory/File Tree" (with the
surrounding blank lines shown), and when content is not suppressed the
content section is bracketed by "File Contents -->" and
"<-- File Contents". -/
theorem c8_section_delimiters (fs : FS) (args : Args) (h : args.no_content = false) :
    "Directory/File Tree -->\n\n" ∈ mainTextChunks fs args ∧
    "\n<-- Directory/File Tree\n\n" ∈ mainTextChunks fs args ∧
    "File Contents -->\n\n" ∈ mainTextChunks fs args ∧
    "\n<-- File Contents\n\n" ∈ mainTextChunks fs args := by
  simp [mainTextChunks, h]

/-- C8 amended-theorem witness at concrete inputs. -/
theorem c8_section_delimiters_witness :
    "Directory/File Tree -->\n\n" ∈ mainTextChunks demoFS cfgBase ∧
    "\n<-- Directory/File Tree\n\n" ∈ mainTextChunks demoFS cfgBase ∧
    "File Contents -->\n\n" ∈ mainTextChunks demoFS cfgBase ∧
    "\n<-- File Contents\n\n" ∈ mainTextChunks demoFS cfgBase :=
  c8_section_delimiters demoFS cfgBase rfl

/-- C9: the processing root is never passed through the evaluator — even
when the evaluator would exclude the root's own path (hypothesis), the tree
renderer still writes the root's display-name line and renders the filtered
children, and the content renderer still processes the children. -/
theorem c9_root_not_filtered (args : Args) (n : String) (cs : List FS)
    (dirPath : String)
    (h : should_ignore dirPath false true args dirPath = true) :
    (write_tree (FS.dir n cs) dirPath args dirPath).lines =
      (basename dirPath ++ "/\n") ::
        (treeGo args dirPath (prepKids args dirPath dirPath cs) dirPath "").lines ∧
    write_file_contents_in_order (FS.dir n cs) dirPath args dirPath =
      contentGo args dirPath (sortByName cs) dirPath 0 :=
  ⟨rfl, rfl⟩

/-- C9 witness: a processing root named ".git" (which the evaluator would
exclude as a child) still yields the root line and its children. -/
theorem c9_root_not_filtered_witness :
    should_ignore "/repo/.git" false true cfgBase "/repo/.git" = true ∧
    (write_tree (FS.dir ".git" [FS.file "a.py" (Except.ok [])]) "/repo/.git"
        cfgBase "/repo/.git").lines =
      (basename "/repo/.git" ++ "/\n") ::
        (treeGo cfgBase "/repo/.git"
          (prepKids cfgBase "/repo/.git" "/repo/.git" [FS.file "a.py" (Except.ok [])])
          "/repo/.git" "").lines ∧
    write_file_contents_in_order (FS.dir ".git" [FS.file "a.py" (Except.ok [])])
        "/repo/.git" cfgBase "/repo/.git" =
      contentGo cfgBase "/repo/.git" (sortByName [FS.file "a.py" (Except.ok [])])
        "/repo/.git" 0 := by
  have hh : should_ignore "/repo/.git" false true cfgBase "/repo/.git" = true := by decide
  have hmain := c9_root_not_filtered cfgBase ".git" [FS.file "a.py" (Except.ok [])]
    "/repo/.git" hh
  exact ⟨hh, hmain.1, hmain.2⟩

/-- C10: the dry-run flag does not change what is written to the output
artifact — the text document chunks are identical with the flag on or off —
and the flag selects only the final diagnostic message. -/
theorem c10_dry_run_still_writes (fs : FS) (args : Args) (b : Bool) :
    (mainText fs { args with dry_run := b }).1 = (mainText fs args).1 ∧
    (mainText fs args).2 =
      (if args.dry_run then "Dry run completed - no output file generated"
       else "Documentation successfully generated: " ++ args.output_file) :=
  ⟨mainTextChunks_dry fs args b, rfl⟩

end Repo2Txt
